import Mathlib

/-!
Shallow embedding of the document-checking core of the doc-helper backend
(`app/services/rule_engine.py`, `app/services/structure_checker.py`,
`app/services/revision_engine.py`, plus the two character predicates from
`app/services/docx_parser.py`), together with proofs settling the frozen
claims about it.

Python dictionaries with a known, closed key set are modelled as Lean
structures whose fields are `Option`-valued when the source accesses them
through `dict.get` (absence and key-present-with-`None` are conflated, which
is exactly how `dict.get` treats them).  Python `float` values are modelled
as `ℚ`; all comparisons the code performs on them are order comparisons on
decimal literals, where `ℚ` and IEEE doubles agree.  `dict` insertion-order
semantics (grouping loops) are modelled by first-occurrence key extraction
(`keysOf`) plus `filter`, and by `assocUpsert` for dicts whose values are
overwritten.
-/

namespace DocHelper

/-- Font dict carried by runs and headings: keys `name`, `size_pt`, `bold`. -/
structure FontInfo where
  name : Option String := none
  size_pt : Option ℚ := none
  bold : Option Bool := none
deriving DecidableEq

/-- Margin dict of `page_settings["margins"]`. -/
structure Margins where
  top_mm : Option ℚ := none
  bottom_mm : Option ℚ := none
  left_mm : Option ℚ := none
  right_mm : Option ℚ := none
deriving DecidableEq

/-- Paper-size dict of `page_settings["paper_size"]`. -/
structure PaperSize where
  width_mm : Option ℚ := none
  height_mm : Option ℚ := none
deriving DecidableEq

/-- The `page_settings` dict of a parsed document. -/
structure PageSettings where
  margins : Margins := {}
  paper_size : PaperSize := {}
deriving DecidableEq

/-- The `formatting` dict of a paragraph target. -/
structure Formatting where
  first_line_indent_chars : Option ℚ := none
  line_spacing_pt : Option ℚ := none
  line_spacing : Option ℚ := none
deriving DecidableEq

/-- Projection of a heading dict to the only field `_match_other_condition`
reads from `target.get("headings", [])`: the heading text. -/
structure HeadingText where
  text : Option String := none
deriving DecidableEq

/-- A check target: the union of the dict shapes `_get_check_targets` can
return (the whole document, a paragraph, a run, a heading, a table, a
figure, a synthesized section or style record). -/
structure Target where
  text : Option String := none
  font : Option FontInfo := none
  level : Option Int := none
  alignment : Option String := none
  formatting : Option Formatting := none
  page_settings : Option PageSettings := none
  index : Option Int := none
  paragraph_index : Option Int := none
  page_number : Option Int := none
  start_line : Option Int := none
  end_line : Option Int := none
  caption_position : Option String := none
  caption : Option String := none
  headings : Option (List HeadingText) := none
deriving DecidableEq

/-- Per-level heading condition value (`condition["level1"]` etc.). -/
structure LevelCondition where
  font : Option String := none
  size_pt : Option ℚ := none
  bold : Option Bool := none
  alignment : Option String := none
deriving DecidableEq

/-- Rule condition dict: the closed union of every key the evaluators in
`rule_engine.py` look up.  `caption_pre` models the source key
`caption_prefix`. -/
structure Condition where
  top_mm : Option ℚ := none
  bottom_mm : Option ℚ := none
  left_mm : Option ℚ := none
  right_mm : Option ℚ := none
  tolerance_mm : Option ℚ := none
  paper_name : Option String := none
  width_mm : Option ℚ := none
  height_mm : Option ℚ := none
  chinese_font : Option String := none
  english_font : Option String := none
  chinese_size_pt : Option ℚ := none
  english_size_pt : Option ℚ := none
  first_line_indent_chars : Option ℚ := none
  paragraph_line_spacing : Option ℚ := none
  number_style : Option String := none
  level1 : Option LevelCondition := none
  level2 : Option LevelCondition := none
  level3 : Option LevelCondition := none
  caption_position : Option String := none
  caption_pre : Option String := none
  required : Option (List String) := none
  citation_style : Option String := none
deriving DecidableEq

/-- Opaque fix-parameter payload (a JSON dict the merge and aggregation code
never inspects). -/
structure FixParams where
  raw : String := ""
deriving DecidableEq

/-- Rule dict as consumed by `RuleEngine._check_rule`.  `match_ty` models
the source key `match` (a Lean keyword). -/
structure Rule where
  id : String := ""
  name : String := ""
  category : String := ""
  match_ty : String := "document"
  condition : Condition := {}
  error_message : Option String := none
  suggestion : Option String := none
  checker : String := "deterministic"
  fix_action : Option String := none
  fix_params : Option FixParams := none
deriving DecidableEq

/-- Location dict built by `_build_location`, `_merge_locations` and the
structure checker.  `locType` models the source key `type`. -/
structure Location where
  locType : Option String := none
  index : Option Int := none
  paragraph_index : Option Int := none
  page_number : Option Int := none
  start_line : Option Int := none
  end_line : Option Int := none
  level : Option Int := none
  text : Option String := none
  description : Option String := none
  count : Option Nat := none
deriving DecidableEq

/-- One per-page display group produced by `_build_locations_list`. -/
structure PageGroup where
  page : Int := 1
  items : List String := []
  all_items : List String := []
  total : Nat := 0
  has_more : Bool := false
deriving DecidableEq

/-- Issue dict.  Pre-merge issues created by `_create_issue` leave
`locations_list`/`raw_locations` at their defaults (absent keys); merged
issues fill them. -/
structure Issue where
  rule_id : String := ""
  rule_name : String := ""
  category : String := ""
  error_message : String := ""
  suggestion : String := ""
  fix_action : Option String := none
  fix_params : Option FixParams := none
  location : Location := {}
  locations_list : List PageGroup := []
  raw_locations : List Location := []
deriving DecidableEq

/-- One table-of-contents entry dict. -/
structure TocEntry where
  title : Option String := none
  level : Option Int := none
  page_number : Option Int := none
deriving DecidableEq

/-- The `table_of_contents` dict: `toc_exists` models the source key
`exists` (a Lean keyword). -/
structure Toc where
  toc_exists : Bool := false
  entries : List TocEntry := []
deriving DecidableEq

/-- Parsed document data (`DocxParser` output) restricted to the keys the
rule engine and structure checker read. -/
structure DocData where
  paragraphs : List Target := []
  runs : List Target := []
  headings : List Target := []
  tables : List Target := []
  figures : List Target := []
  page_settings : PageSettings := {}
  table_of_contents : Toc := {}
deriving DecidableEq

/-- `_merge_locations`: collapse a location list into the summary location. -/
def mergeLocations (locations : List Location) : Location :=
  if locations.isEmpty then
    { locType := some "unknown", description := some "未知位置" }
  else
    { locType := some "merged"
      description := some ("共" ++ toString locations.length ++ "处位置")
      count := some locations.length }

/-- Stable insertion of `a` after all list entries whose key is `≤ key a`;
folding it over a list reproduces Python's stable `sorted(..., key=...)`. -/
def insertByKey {α : Type} (key : α → Int) (a : α) : List α → List α
  | [] => [a]
  | b :: t => if key b ≤ key a then b :: insertByKey key a t else a :: b :: t

/-- Python `sorted(l, key=...)` (stable, ascending). -/
def sortByKey {α : Type} (key : α → Int) (l : List α) : List α :=
  l.foldl (fun acc a => insertByKey key a acc) []

/-- Keep the first occurrence of each key value (the `seen_indices` loops of
the merge-consecutive helpers). -/
def dedupByKey (key : Location → Int) : List Location → List Location
  | [] => []
  | a :: t => a :: dedupByKey key (t.filter (fun b => decide (key b ≠ key a)))
termination_by l => l.length
decreasing_by
  simp only [List.length_cons]
  have := List.length_filter_le (fun b => decide (key b ≠ key a)) t
  omega

/-- Maximal run of elements whose keys continue `expected, expected+1, …`
(the inner `while` of `_merge_consecutive_runs`/`_figures`), returning the
run and the remainder. -/
def consecChunk (key : Location → Int) (expected : Int) :
    List Location → List Location × List Location
  | [] => ([], [])
  | a :: t =>
    if key a = expected then
      (a :: (consecChunk key (expected + 1) t).1, (consecChunk key (expected + 1) t).2)
    else ([], a :: t)

theorem consecChunk_rest_length_le (key : Location → Int) (expected : Int)
    (l : List Location) : (consecChunk key expected l).2.length ≤ l.length := by
  induction l generalizing expected with
  | nil => simp [consecChunk]
  | cons a t ih =>
    simp only [consecChunk]
    by_cases h : key a = expected
    · simp only [h, if_true]
      exact le_trans (ih (expected + 1)) (Nat.le_succ _)
    · simp [h]

/-- Outer `while` of `_merge_consecutive_runs` over the deduplicated list:
runs of ≥ 3 consecutive paragraph indices collapse into one range string. -/
def runChunkStrings (key : Location → Int) : List Location → List String
  | [] => []
  | a :: t =>
    (if (a :: (consecChunk key (key a + 1) t).1).length ≥ 3 then
      ["第" ++ toString (key a + 1) ++ "~"
        ++ toString (key ((consecChunk key (key a + 1) t).1.getLastD a) + 1) ++ "段"]
    else
      (a :: (consecChunk key (key a + 1) t).1).map (fun l => "第" ++ toString (key l + 1) ++ "段"))
    ++ runChunkStrings key (consecChunk key (key a + 1) t).2
termination_by l => l.length
decreasing_by
  simp only [List.length_cons]
  have := consecChunk_rest_length_le key (key a + 1) t
  omega

/-- `_merge_consecutive_runs`: sort by `paragraph_index`, deduplicate,
collapse consecutive runs of indices. -/
def mergeConsecutiveRuns (run_locs : List Location) : List String :=
  if run_locs.isEmpty then []
  else
    runChunkStrings (fun l => l.paragraph_index.getD 0)
      (dedupByKey (fun l => l.paragraph_index.getD 0)
        (sortByKey (fun l => l.paragraph_index.getD 0) run_locs))

/-- Outer `while` of `_merge_consecutive_figures`. -/
def figureChunkStrings (key : Location → Int) : List Location → List String
  | [] => []
  | a :: t =>
    (if (a :: (consecChunk key (key a + 1) t).1).length ≥ 3 then
      ["第" ++ toString (key a + 1) ++ "~"
        ++ toString (key ((consecChunk key (key a + 1) t).1.getLastD a) + 1) ++ "个图表"]
    else
      (a :: (consecChunk key (key a + 1) t).1).map
        (fun l => "第" ++ toString (key l + 1) ++ "个图表"))
    ++ figureChunkStrings key (consecChunk key (key a + 1) t).2
termination_by l => l.length
decreasing_by
  simp only [List.length_cons]
  have := consecChunk_rest_length_le key (key a + 1) t
  omega

/-- `_merge_consecutive_figures`. -/
def mergeConsecutiveFigures (figure_locs : List Location) : List String :=
  if figure_locs.isEmpty then []
  else
    figureChunkStrings (fun l => l.index.getD 0)
      (dedupByKey (fun l => l.index.getD 0)
        (sortByKey (fun l => l.index.getD 0) figure_locs))

/-- Inner `while` of `_merge_consecutive_paragraphs`: indices must continue
`expectedIdx, expectedIdx+1, …` and each start line must be the running end
line plus one; returns (run, final end line, remainder). -/
def consecParaChunk (expectedIdx : Int) (endLine : Int) :
    List Location → List Location × Int × List Location
  | [] => ([], endLine, [])
  | a :: t =>
    if a.index.getD 0 = expectedIdx ∧ a.start_line.getD 1 = endLine + 1 then
      (a :: (consecParaChunk (expectedIdx + 1) (a.end_line.getD (a.start_line.getD 1)) t).1,
        (consecParaChunk (expectedIdx + 1) (a.end_line.getD (a.start_line.getD 1)) t).2)
    else ([], endLine, a :: t)

theorem consecParaChunk_rest_length_le (expectedIdx endLine : Int)
    (l : List Location) :
    (consecParaChunk expectedIdx endLine l).2.2.length ≤ l.length := by
  induction l generalizing expectedIdx endLine with
  | nil => simp [consecParaChunk]
  | cons a t ih =>
    simp only [consecParaChunk]
    by_cases h : a.index.getD 0 = expectedIdx ∧ a.start_line.getD 1 = endLine + 1
    · simp only [h, and_self, if_true]
      exact le_trans (ih _ _) (Nat.le_succ _)
    · simp [h]

/-- Individual display string of one paragraph location. -/
def paraSingleString (l : Location) : String :=
  if l.start_line.getD 1 = l.end_line.getD (l.start_line.getD 1) then
    "第" ++ toString (l.index.getD 0 + 1) ++ "段(第" ++ toString (l.start_line.getD 1) ++ "行)"
  else
    "第" ++ toString (l.index.getD 0 + 1) ++ "段(" ++ toString (l.start_line.getD 1)
      ++ "~" ++ toString (l.end_line.getD (l.start_line.getD 1)) ++ "行)"

/-- Outer `while` of `_merge_consecutive_paragraphs`. -/
def paraChunkStrings : List Location → List String
  | [] => []
  | a :: t =>
    (if (a :: (consecParaChunk (a.index.getD 0 + 1)
          (a.end_line.getD (a.start_line.getD 1)) t).1).length ≥ 3 then
      (if a.start_line.getD 1
          = (consecParaChunk (a.index.getD 0 + 1) (a.end_line.getD (a.start_line.getD 1)) t).2.1 then
        ["第" ++ toString (a.index.getD 0 + 1) ++ "~"
          ++ toString (((consecParaChunk (a.index.getD 0 + 1)
              (a.end_line.getD (a.start_line.getD 1)) t).1.getLastD a).index.getD 0 + 1)
          ++ "段(第" ++ toString (a.start_line.getD 1) ++ "行)"]
      else
        ["第" ++ toString (a.index.getD 0 + 1) ++ "~"
          ++ toString (((consecParaChunk (a.index.getD 0 + 1)
              (a.end_line.getD (a.start_line.getD 1)) t).1.getLastD a).index.getD 0 + 1)
          ++ "段(第" ++ toString (a.start_line.getD 1) ++ "~"
          ++ toString ((consecParaChunk (a.index.getD 0 + 1)
              (a.end_line.getD (a.start_line.getD 1)) t).2.1) ++ "行)"])
    else
      (a :: (consecParaChunk (a.index.getD 0 + 1)
          (a.end_line.getD (a.start_line.getD 1)) t).1).map paraSingleString)
    ++ paraChunkStrings
        (consecParaChunk (a.index.getD 0 + 1) (a.end_line.getD (a.start_line.getD 1)) t).2.2
termination_by l => l.length
decreasing_by
  simp only [List.length_cons]
  have := consecParaChunk_rest_length_le (a.index.getD 0 + 1)
    (a.end_line.getD (a.start_line.getD 1)) t
  omega

/-- `_merge_consecutive_paragraphs` (the caller passes an already sorted
list; the function only deduplicates by index). -/
def mergeConsecutiveParagraphs (para_locs : List Location) : List String :=
  if para_locs.isEmpty then []
  else paraChunkStrings (dedupByKey (fun l => l.index.getD 0) para_locs)

/-- First-occurrence-ordered distinct keys of a list: the key sequence of a
Python `dict` built by a grouping loop. -/
def keysOf {α κ : Type} [DecidableEq κ] (key : α → κ) : List α → List κ
  | [] => []
  | a :: t => key a :: (keysOf key t).filter (fun k => decide (k ≠ key a))

/-- `_build_locations_list`: group by page, merge consecutive locations per
type, cap the display list at 20 entries. -/
def buildLocationsList (locations : List Location) : List PageGroup :=
  if locations.isEmpty then []
  else
    (sortByKey (fun k => k) (keysOf (fun l => l.page_number.getD 1) locations)).map
      (fun page =>
        let page_locs := locations.filter (fun l => decide (l.page_number.getD 1 = page))
        let run_locs := page_locs.filter (fun l => decide (l.locType = some "run"))
        let para_locs := page_locs.filter (fun l => decide (l.locType = some "paragraph"))
        let figure_locs := page_locs.filter (fun l => decide (l.locType = some "figure"))
        let other_locs := page_locs.filter (fun l =>
          decide (l.locType ≠ some "run" ∧ l.locType ≠ some "paragraph"
            ∧ l.locType ≠ some "figure"))
        let all_items :=
          (if run_locs.isEmpty then []
            else mergeConsecutiveRuns
              (sortByKey (fun l => l.paragraph_index.getD 0) run_locs))
          ++ (if para_locs.isEmpty then []
            else mergeConsecutiveParagraphs (sortByKey (fun l => l.index.getD 0) para_locs))
          ++ (if figure_locs.isEmpty then []
            else mergeConsecutiveFigures (sortByKey (fun l => l.index.getD 0) figure_locs))
          ++ other_locs.map (fun l => l.description.getD "")
        { page := page
          items := all_items.take 20
          all_items := all_items
          total := page_locs.length
          has_more := decide (all_items.length > 20) })

/-- Merged issue built from one `rule_id` group (`_merge_issues_by_rule`
body): metadata comes from the first issue of the group, the location
fields from the group's location list. -/
def mergeGroup : List Issue → Issue
  | [] => {}
  | i :: rest =>
    { rule_id := i.rule_id
      rule_name := i.rule_name
      category := i.category
      error_message := i.error_message
      suggestion := i.suggestion
      fix_action := i.fix_action
      fix_params := i.fix_params
      location := mergeLocations ((i :: rest).map (fun j => j.location))
      locations_list := buildLocationsList ((i :: rest).map (fun j => j.location))
      raw_locations := (i :: rest).map (fun j => j.location) }

/-- `RuleEngine._merge_issues_by_rule`: group by `rule_id` in
first-occurrence order (Python dict insertion order) and merge each group. -/
def mergeIssuesByRule (issues : List Issue) : List Issue :=
  (keysOf (fun i => i.rule_id) issues).map
    (fun rid => mergeGroup (issues.filter (fun i => decide (i.rule_id = rid))))

/-- `docx_parser.contains_chinese`: regex `[一-鿿]`. -/
def containsChinese (text : String) : Bool :=
  text.data.any (fun c => decide (0x4e00 ≤ c.val ∧ c.val ≤ 0x9fff))

/-- `docx_parser.contains_english`: regex `[a-zA-Z]`. -/
def containsEnglish (text : String) : Bool :=
  text.data.any (fun c => ('a' ≤ c ∧ c ≤ 'z') ∨ ('A' ≤ c ∧ c ≤ 'Z'))

/-- The canonical alias table (`font_map`) of `_match_font_condition`. -/
def fontAlias (raw : String) : String :=
  if raw = "宋体" then "SimSun"
  else if raw = "SimSun" then "SimSun"
  else if raw = "黑体" then "SimHei"
  else if raw = "SimHei" then "SimHei"
  else if raw = "微软雅黑" then "Microsoft YaHei"
  else if raw = "Microsoft YaHei" then "Microsoft YaHei"
  else if raw = "楷体" then "KaiTi"
  else if raw = "KaiTi" then "KaiTi"
  else if raw = "仿宋" then "FangSong"
  else if raw = "FangSong" then "FangSong"
  else if raw = "方正小标宋简体" then "方正小标宋简体"
  else raw

/-- `normalize_font_name`: `None`/empty → `None`, otherwise first entry of
the comma-separated list, stripped, mapped through the alias table. -/
def normalizeFontName : Option String → Option String
  | none => none
  | some s =>
    if s = "" then none
    else some (fontAlias (((s.splitOn ",").headD s).trim))

/-- One margin-side check of `_match_page_condition`: pass when the key is
absent from the condition or `|actual - expected| ≤ tolerance`. -/
def sideOk (actual tol : ℚ) : Option ℚ → Bool
  | some expected => decide (|actual - expected| ≤ tol)
  | none => true

/-- `_match_page_condition`. -/
def matchPageCondition (t : Target) (c : Condition) : Bool :=
  let ps := t.page_settings.getD {}
  let margins := ps.margins
  let tol := c.tolerance_mm.getD (1/2)
  sideOk (margins.top_mm.getD 0) tol c.top_mm
  && sideOk (margins.bottom_mm.getD 0) tol c.bottom_mm
  && sideOk (margins.left_mm.getD 0) tol c.left_mm
  && sideOk (margins.right_mm.getD 0) tol c.right_mm
  && (match c.paper_name with
    | none => true
    | some pn =>
      let w := ps.paper_size.width_mm.getD 0
      let h := ps.paper_size.height_mm.getD 0
      if pn = "A4" then decide (|w - 210| < 1 ∧ |h - 297| < 1)
      else
        match c.width_mm, c.height_mm with
        | some cw, some ch => decide (|w - cw| ≤ 1) && decide (|h - ch| ≤ 1)
        | _, _ => true)

/-- `_match_font_condition`, including the skip-on-uncertainty guard for a
target whose font name or size could not be resolved. -/
def matchFontCondition (t : Target) (c : Condition) : Bool :=
  let font := t.font.getD {}
  let text := t.text.getD ""
  if font.name = none ∨ font.size_pt = none then true
  else
    (match c.chinese_font with
      | some cf =>
        !(containsChinese text)
          || decide (normalizeFontName font.name = normalizeFontName (some cf))
      | none => true)
    && (match c.english_font with
      | some ef =>
        !(containsEnglish text)
          || decide (normalizeFontName font.name = normalizeFontName (some ef))
      | none => true)
    && (match c.chinese_size_pt with
      | some sz => !(containsChinese text) || decide (|font.size_pt.getD 0 - sz| ≤ 1/2)
      | none => true)
    && (match c.english_size_pt with
      | some sz => !(containsEnglish text) || decide (|font.size_pt.getD 0 - sz| ≤ 1/2)
      | none => true)

/-- `_match_paragraph_condition`.  Python truthiness of the numeric spacing
value (`if actual_spacing_pt and …`, `… if line_spacing else 0`) is mirrored
by explicit comparisons with `0`. -/
def matchParagraphCondition (t : Target) (c : Condition) : Bool :=
  let fmt := t.formatting.getD {}
  (match c.first_line_indent_chars with
    | some expected => decide (|fmt.first_line_indent_chars.getD 0 - expected| ≤ 1/2)
    | none => true)
  && (match c.paragraph_line_spacing with
    | some expected =>
      let actual_pt : ℚ :=
        match fmt.line_spacing_pt with
        | some v => v
        | none =>
          let ls := fmt.line_spacing.getD 0
          if ls > 10 then ls
          else
            let font_size : ℚ :=
              match t.font with
              | some f => if f.size_pt.getD 0 ≠ 0 then f.size_pt.getD 0 else 12
              | none => 12
            if ls ≠ 0 then ls * font_size else 0
      !(decide (actual_pt ≠ 0)) || decide (|actual_pt - expected| ≤ 2)
    | none => true)

/-- `re.match(r'^\d+(\.\d+)*', text)` succeeds exactly when the text starts
with a digit (the tail of the pattern may match the empty string). -/
def startsWithDigit (s : String) : Bool :=
  match s.data with
  | [] => false
  | ch :: _ => ch.isDigit

/-- Select `condition[f"level{level}"]` (the condition dict carries at most
the keys `level1`–`level3`). -/
def levelCondition (c : Condition) : Option Int → Option LevelCondition
  | some 1 => c.level1
  | some 2 => c.level2
  | some 3 => c.level3
  | _ => none

/-- `_match_heading_condition`, including its skip-on-uncertainty guard. -/
def matchHeadingCondition (t : Target) (c : Condition) (match_ty : String) : Bool :=
  if match_ty = "section" then
    match c.number_style with
    | some _ => startsWithDigit ((t.text.getD "").trim)
    | none => true
  else
    match levelCondition c t.level with
    | none => true
    | some lc =>
      let font := t.font.getD {}
      if font.name = none ∨ font.size_pt = none then true
      else
        (match lc.font with
          | some f => decide (font.name = some f)
          | none => true)
        && (match lc.size_pt with
          | some s => decide (|font.size_pt.getD 0 - s| ≤ 1/2)
          | none => true)
        && (match lc.bold with
          | some b => decide (font.bold = some b)
          | none => true)
        && (match lc.alignment with
          | some a => decide (t.alignment = some a)
          | none => true)

/-- `_match_figure_condition` (`caption_pre` models the source key
`caption_prefix`; `target.get("caption") or ""` maps both `None` and the
empty string to `""`). -/
def matchFigureCondition (t : Target) (c : Condition) : Bool :=
  (match c.caption_position with
    | some cp => decide (t.caption_position = some cp)
    | none => true)
  && (match c.caption_pre with
    | some pre => (t.caption.getD "").startsWith pre
    | none => true)

/-- `_match_other_condition` (the `citation_style` branch is a stated no-op
in the source). -/
def matchOtherCondition (t : Target) (c : Condition) : Bool :=
  match c.required with
  | some required =>
    let heading_texts := (t.headings.getD []).map (fun h => (h.text.getD "").toLower)
    required.all (fun req => heading_texts.contains req || req = "body")
  | none => true

/-- `_match_generic_condition`: field-by-field equality over every key
present in the condition dict; a condition key the target dict never carries
compares `None != value` and fails. -/
def matchGenericCondition (t : Target) (c : Condition) : Bool :=
  c.top_mm.isNone && c.bottom_mm.isNone && c.left_mm.isNone && c.right_mm.isNone
  && c.tolerance_mm.isNone && c.paper_name.isNone && c.width_mm.isNone
  && c.height_mm.isNone && c.chinese_font.isNone && c.english_font.isNone
  && c.chinese_size_pt.isNone && c.english_size_pt.isNone
  && c.first_line_indent_chars.isNone && c.paragraph_line_spacing.isNone
  && c.number_style.isNone && c.level1.isNone && c.level2.isNone && c.level3.isNone
  && (match c.caption_position with
    | some cp => decide (t.caption_position = some cp)
    | none => true)
  && (match c.caption_pre with
    | some cp => decide (t.caption = some cp)
    | none => true)
  && c.required.isNone && c.citation_style.isNone

/-- `_match_condition` dispatcher. -/
def matchCondition (t : Target) (c : Condition) (category match_ty : String) : Bool :=
  if category = "page" then matchPageCondition t c
  else if category = "font" then matchFontCondition t c
  else if category = "paragraph" then matchParagraphCondition t c
  else if category = "heading" then matchHeadingCondition t c match_ty
  else if category = "figure" then matchFigureCondition t c
  else if category = "other" then matchOtherCondition t c
  else matchGenericCondition t c

/-- `_extract_sections`. -/
def extractSections (doc : DocData) : List Target :=
  doc.headings.map (fun h =>
    { level := h.level, text := h.text, paragraph_index := h.paragraph_index })

/-- `_extract_styles`: for each level 1–3, the first heading of that level. -/
def extractStyles (doc : DocData) : List Target :=
  ([1, 2, 3] : List Int).filterMap (fun lv =>
    match (doc.headings.filter (fun h => decide (h.level = some lv))).head? with
    | some h => some { level := some lv, font := some (h.font.getD {}), alignment := h.alignment }
    | none => none)

/-- The document dict viewed as a check target (`match == "document"`
passes `doc_data` itself to the matchers, which read only `page_settings`
and, in the `other` matcher, the heading texts). -/
def docTarget (doc : DocData) : Target :=
  { page_settings := some doc.page_settings
    headings := some (doc.headings.map (fun h => { text := h.text })) }

/-- `_get_check_targets`, including the body-only filters that exclude
heading-owned paragraphs/runs from `paragraph`/`font` category checks. -/
def getCheckTargets (doc : DocData) (match_ty category : String) : List Target :=
  if match_ty = "document" then [docTarget doc]
  else if match_ty = "paragraph" then
    if category = "paragraph" then
      doc.paragraphs.filter (fun p =>
        !((doc.headings.map (fun h => h.paragraph_index)).contains p.index))
    else doc.paragraphs
  else if match_ty = "run" then
    if category = "font" then
      doc.runs.filter (fun r =>
        !((doc.headings.map (fun h => h.paragraph_index)).contains r.paragraph_index))
    else doc.runs
  else if match_ty = "heading" then doc.headings
  else if match_ty = "table" then doc.tables
  else if match_ty = "figure" then doc.figures
  else if match_ty = "section" then extractSections doc
  else if match_ty = "style" then extractStyles doc
  else []

/-- `_build_location`. -/
def buildLocation (t : Target) (match_ty : String) : Location :=
  if match_ty = "paragraph" then
    { locType := some "paragraph"
      index := some (t.index.getD 0)
      page_number := some (t.page_number.getD 1)
      start_line := some (t.start_line.getD 1)
      end_line := some (t.end_line.getD (t.start_line.getD 1))
      description := some ("第" ++ toString (t.page_number.getD 1) ++ "页第"
        ++ toString (t.index.getD 0 + 1) ++ "段(" ++ toString (t.start_line.getD 1)
        ++ "~" ++ toString (t.end_line.getD (t.start_line.getD 1)) ++ "行)") }
  else if match_ty = "run" then
    { locType := some "run"
      paragraph_index := some (t.paragraph_index.getD 0)
      page_number := some (t.page_number.getD 1)
      description := some ("第" ++ toString (t.page_number.getD 1) ++ "页第"
        ++ toString (t.paragraph_index.getD 0 + 1) ++ "段文本") }
  else if match_ty = "heading" then
    { locType := some "heading"
      level := t.level
      text := t.text
      paragraph_index := t.paragraph_index
      description := some ("标题: " ++ t.text.getD "") }
  else if match_ty = "style" then
    { locType := some "style"
      level := some (t.level.getD 1)
      description := some (toString (t.level.getD 1) ++ "级标题样式") }
  else if match_ty = "document" then
    { locType := some "document", description := some "文档整体设置" }
  else if match_ty = "figure" then
    { locType := some "figure"
      index := some (t.index.getD 0)
      description := some ("第" ++ toString (t.index.getD 0 + 1) ++ "个图表") }
  else { locType := some match_ty }

/-- `_create_issue`. -/
def createIssue (rule : Rule) (t : Target) (match_ty : String) : Issue :=
  { rule_id := rule.id
    rule_name := rule.name
    category := rule.category
    error_message := rule.error_message.getD "格式不符合规范"
    suggestion := rule.suggestion.getD ""
    fix_action := rule.fix_action
    fix_params := rule.fix_params
    location := buildLocation t match_ty }

/-- `_aggregate_run_issues_by_paragraph`: group run-level issues by their
location's `paragraph_index` (dict insertion order), keep the first issue's
metadata per group, and emit one paragraph-level location per group.  The
source also tallies a `run_count` per group but never copies it into the
emitted issue. -/
def aggregateRunIssuesByParagraph (run_issues : List Issue) (doc : DocData) :
    List Issue :=
  (keysOf (fun i => i.location.paragraph_index.getD 0) run_issues).map (fun pidx =>
    match run_issues.filter (fun i => decide (i.location.paragraph_index.getD 0 = pidx)) with
    | [] => {}
    | first :: _ =>
      { rule_id := first.rule_id
        rule_name := first.rule_name
        category := first.category
        error_message := first.error_message
        suggestion := first.suggestion
        fix_action := first.fix_action
        fix_params := first.fix_params
        location :=
          match (if 0 ≤ pidx ∧ pidx < (doc.paragraphs.length : Int) then
              doc.paragraphs[pidx.toNat]? else none) with
          | some para =>
            { locType := some "paragraph"
              index := some pidx
              page_number := some (para.page_number.getD 1)
              start_line := some (para.start_line.getD 1)
              end_line := some (para.end_line.getD 1)
              description := some ("第" ++ toString (pidx + 1) ++ "段") }
          | none =>
            { locType := some "paragraph"
              index := some pidx
              page_number := some 1
              start_line := some 1
              end_line := some 1
              description := some ("第" ++ toString (pidx + 1) ++ "段") } })

/-- Chinese numeral characters accepted by the enumerator-stripping
patterns of `_normalize_title`. -/
def isCnNum (c : Char) : Bool :=
  c = '一' ∨ c = '二' ∨ c = '三' ∨ c = '四' ∨ c = '五' ∨ c = '六' ∨ c = '七'
    ∨ c = '八' ∨ c = '九' ∨ c = '十'

/-- `re.sub(r'^<class>+[、.]', '', s)` for a character class `isNum`.  The
class is disjoint from the delimiters, so maximal munch agrees with the
regex. -/
def stripNumDot (isNum : Char → Bool) (s : List Char) : List Char :=
  if (s.takeWhile isNum).isEmpty then s
  else
    match s.drop (s.takeWhile isNum).length with
    | d :: rest => if d = '、' ∨ d = '.' then rest else s
    | [] => s

/-- `re.sub(r'^[（(]\s*<class>+[）)]', '', s)`. -/
def stripParenNum (isNum : Char → Bool) (s : List Char) : List Char :=
  match s with
  | c :: rest =>
    if c = '（' ∨ c = '(' then
      let rest1 := rest.dropWhile (fun ch => ch.isWhitespace)
      let num := rest1.takeWhile isNum
      if num.isEmpty then s
      else
        match rest1.drop num.length with
        | d :: rest2 => if d = '）' ∨ d = ')' then rest2 else s
        | [] => s
    else s
  | [] => s

/-- The punctuation removed by the last substitution of `_normalize_title`. -/
def isCnPunct (c : Char) : Bool :=
  c = '，' ∨ c = '。' ∨ c = '、' ∨ c = '；' ∨ c = '：' ∨ c = '！' ∨ c = '？'

/-- `StructureChecker._normalize_title`: strip enumerator prefixes, then
remove all whitespace (including the ideographic space) and the listed
punctuation.  `\d` is modelled as the ASCII digits. -/
def normalizeTitle (title : String) : String :=
  ⟨((stripParenNum Char.isDigit
      (stripParenNum isCnNum
        (stripNumDot Char.isDigit
          (stripNumDot isCnNum title.trim.data)))).filter
    (fun c => !(c.isWhitespace ∨ c = '　' ∨ isCnPunct c)))⟩

/-- Python `needle in hay` on strings: `needle.data` is an infix of
`hay.data`. -/
def strContains (hay needle : String) : Bool :=
  decide (needle.data <:+: hay.data)

/-- `StructureChecker._find_section`: exact or bidirectional-substring match
after normalization. -/
def findSection (section_name : String) (found_sections : List String) : Bool :=
  found_sections.any (fun f =>
    decide (normalizeTitle section_name = normalizeTitle f)
      || strContains (normalizeTitle f) (normalizeTitle section_name)
      || strContains (normalizeTitle section_name) (normalizeTitle f))

/-- Issue emitted by `check_required_sections` for one missing section. -/
def requiredSectionIssue (sec : String) : Issue :=
  { rule_id := "REQUIRED_SECTION_MISSING"
    rule_name := "缺少必要章节：" ++ sec
    category := "structure"
    error_message := "文档中未找到必要章节：" ++ sec
    suggestion := "请在文档中添加章节：" ++ sec
    location := { locType := some "document", description := some "文档结构"
                  page_number := some 1 } }

/-- `StructureChecker.check_required_sections` (the source collects heading
texts into a set; only membership is consumed, so a list is faithful). -/
def checkRequiredSections (doc : DocData) (required : List String) : List Issue :=
  let found_sections := doc.headings.filterMap (fun h =>
    if (h.text.getD "").trim = "" then none else some ((h.text.getD "").trim))
  required.filterMap (fun sec =>
    if findSection sec found_sections then none else some (requiredSectionIssue sec))

/-- `StructureChecker._get_heading_page`.  Parser-produced paragraph indices
are non-negative; Python's negative-index wraparound and its IndexError path
are collapsed to the default page `1`, which no claim exercises. -/
def getHeadingPage (doc : DocData) : Option Int → Int
  | none => 1
  | some idx =>
    if 0 ≤ idx ∧ idx < (doc.paragraphs.length : Int) then
      match doc.paragraphs[idx.toNat]? with
      | some p => p.page_number.getD 1
      | none => 1
    else 1

/-- The single issue returned when the document has no table of contents. -/
def tocMissingIssue : Issue :=
  { rule_id := "TOC_MISSING"
    rule_name := "缺少目录"
    category := "structure"
    error_message := "文档中未找到目录"
    suggestion := "请添加目录"
    location := { locType := some "document", description := some "文档前部"
                  page_number := some 1 } }

/-- The single issue returned when the table of contents has no entries. -/
def tocEmptyIssue : Issue :=
  { rule_id := "TOC_EMPTY"
    rule_name := "目录为空"
    category := "structure"
    error_message := "目录中没有条目"
    suggestion := "请确保目录包含所有主要章节"
    location := { locType := some "toc", description := some "目录"
                  page_number := some 1 } }

/-- Value stored in the `toc_titles` dict (the unused `entry` back-pointer
is dropped). -/
structure TocTitleInfo where
  original : String := ""
  level : Int := 1
  page_number : Option Int := none
deriving DecidableEq

/-- Value stored in the `body_titles` dict (the unused `heading`
back-pointer is dropped). -/
structure BodyTitleInfo where
  original : String := ""
  level : Int := 1
  paragraph_index : Option Int := none
deriving DecidableEq

/-- Python `d[k] = v`: overwrite in place, keeping first-insertion key
order. -/
def assocUpsert {β : Type} (k : String) (v : β) :
    List (String × β) → List (String × β)
  | [] => [(k, v)]
  | (k', v') :: t => if k' = k then (k', v) :: t else (k', v') :: assocUpsert k v t

/-- The `toc_titles` dict keyed by normalized title. -/
def buildTocTitles (entries : List TocEntry) : List (String × TocTitleInfo) :=
  entries.foldl (fun acc e =>
    if (e.title.getD "").trim = "" then acc
    else
      assocUpsert (normalizeTitle ((e.title.getD "").trim))
        { original := (e.title.getD "").trim
          level := e.level.getD 1
          page_number := e.page_number } acc) []

/-- The `body_titles` dict keyed by normalized heading text. -/
def buildBodyTitles (headings : List Target) : List (String × BodyTitleInfo) :=
  headings.foldl (fun acc h =>
    if (h.text.getD "").trim = "" then acc
    else
      assocUpsert (normalizeTitle ((h.text.getD "").trim))
        { original := (h.text.getD "").trim
          level := h.level.getD 1
          paragraph_index := h.paragraph_index } acc) []

/-- Check 1 of `check_toc_body_consistency` for one TOC entry: resolve it to
a body heading (exact match first, then bidirectional substring), report a
not-found or level-mismatch issue. -/
def tocEntryIssues (doc : DocData) (body_titles : List (String × BodyTitleInfo))
    (nt : String) (td : TocTitleInfo) : List Issue :=
  let found :=
    match body_titles.find? (fun p => decide (p.1 = nt)) with
    | some p => some p.2
    | none =>
      (body_titles.find? (fun (p : String × BodyTitleInfo) =>
          strContains p.1 nt || strContains nt p.1)).map
        (fun (p : String × BodyTitleInfo) => p.2)
  match found with
  | none =>
    [{ rule_id := "TOC_ENTRY_NOT_FOUND"
       rule_name := "目录条目在正文中不存在"
       category := "structure"
       error_message := "目录中的\"" ++ td.original ++ "\"在正文中未找到对应标题"
       suggestion := "请检查目录，确保\"" ++ td.original ++ "\"在正文中存在对应的标题"
       location := { locType := some "toc"
                     description := some ("目录条目：" ++ td.original)
                     page_number := some 1 } }]
  | some body =>
    if td.level ≠ body.level then
      [{ rule_id := "TOC_LEVEL_MISMATCH"
         rule_name := "目录层级与正文不一致"
         category := "structure"
         error_message := "目录中的\"" ++ td.original ++ "\"层级(" ++ toString td.level
           ++ "级)与正文中的层级(" ++ toString body.level ++ "级)不一致"
         suggestion := "请检查目录和正文中\"" ++ td.original ++ "\"的层级设置，确保一致"
         location := { locType := some "heading"
                       text := some td.original
                       paragraph_index := body.paragraph_index
                       page_number := some (getHeadingPage doc body.paragraph_index) } }]
    else []

/-- Check 2 of `check_toc_body_consistency` for one level-1 body heading:
report it when it resolves to no TOC entry (exact or substring). -/
def headingNotInTocIssues (doc : DocData)
    (toc_titles : List (String × TocTitleInfo)) (h : Target) : List Issue :=
  if (h.text.getD "").trim = "" then []
  else
    let nt := normalizeTitle ((h.text.getD "").trim)
    if toc_titles.any (fun p =>
        decide (p.1 = nt) || strContains p.1 nt || strContains nt p.1) then []
    else
      [{ rule_id := "HEADING_NOT_IN_TOC"
         rule_name := "正文标题未出现在目录中"
         category := "structure"
         error_message := "正文中的一级标题\"" ++ (h.text.getD "").trim ++ "\"未出现在目录中"
         suggestion := "请在目录中添加\"" ++ (h.text.getD "").trim ++ "\""
         location := { locType := some "heading"
                       text := some ((h.text.getD "").trim)
                       paragraph_index := h.paragraph_index
                       page_number := some (getHeadingPage doc h.paragraph_index) } }]

/-- `StructureChecker.check_toc_body_consistency`: missing TOC and empty TOC
each short-circuit with exactly one issue; otherwise run checks 1 and 2. -/
def checkTocBodyConsistency (doc : DocData) : List Issue :=
  if !doc.table_of_contents.toc_exists then [tocMissingIssue]
  else if doc.table_of_contents.entries.isEmpty then [tocEmptyIssue]
  else
    let toc_titles := buildTocTitles doc.table_of_contents.entries
    let body_titles := buildBodyTitles doc.headings
    (toc_titles.flatMap (fun (p : String × TocTitleInfo) =>
      tocEntryIssues doc body_titles p.1 p.2))
      ++ ((doc.headings.filter (fun h => decide (h.level = some 1))).flatMap
        (fun h => headingNotInTocIssues doc toc_titles h))

/-- Python `f"{x}"` applied to an optional string renders `None` as the
literal `"None"`. -/
def pyStr (o : Option String) : String := o.getD "None"

/-- The level-jump issue of `check_heading_hierarchy`, naming the missing
intermediate level `prev + 1`. -/
def jumpIssue (doc : DocData) (pr cu : Target) : Issue :=
  { rule_id := "HEADING_LEVEL_JUMP"
    rule_name := "标题层级跳跃"
    category := "structure"
    error_message := "标题层级从" ++ toString (pr.level.getD 1) ++ "级跳转到"
      ++ toString (cu.level.getD 1) ++ "级，中间缺少" ++ toString (pr.level.getD 1 + 1)
      ++ "级标题"
    suggestion := "请在\"" ++ pyStr pr.text ++ "\"和\"" ++ pyStr cu.text ++ "\"之间添加"
      ++ toString (pr.level.getD 1 + 1) ++ "级标题"
    location := { locType := some "heading"
                  text := cu.text
                  paragraph_index := cu.paragraph_index
                  page_number := some (getHeadingPage doc cu.paragraph_index) } }

/-- Scan of adjacent heading pairs in `check_heading_hierarchy`: a heading
of level 1 is never a jump; otherwise a jump of more than one level deeper
than the immediately preceding heading is reported. -/
def hierLoop (doc : DocData) : List Target → List Issue
  | prev :: curr :: rest =>
    (if curr.level.getD 1 = 1 then []
     else if curr.level.getD 1 > prev.level.getD 1 + 1 then [jumpIssue doc prev curr]
     else [])
    ++ hierLoop doc (curr :: rest)
  | _ => []

/-- `StructureChecker.check_heading_hierarchy`. -/
def checkHeadingHierarchy (doc : DocData) : List Issue :=
  if doc.headings.length < 2 then [] else hierLoop doc doc.headings

/-- The `setdefault`/fix-field loop at the end of `_check_structure_rule`:
structure-checker issues always carry rule_id through location, and never
carry fix fields, so only `fix_action`/`fix_params` are filled from the
rule. -/
def applyRuleFixDefaults (rule : Rule) (i : Issue) : Issue :=
  { i with fix_action := rule.fix_action, fix_params := rule.fix_params }

/-- `RuleEngine._check_structure_rule`. -/
def checkStructureRule (rule : Rule) (doc : DocData) : List Issue :=
  (if rule.id = "REQUIRED_SECTIONS_CHECK" then
    match rule.condition.required with
    | some required => if required.isEmpty then [] else checkRequiredSections doc required
    | none => []
  else if rule.id = "TOC_BODY_CONSISTENCY" then checkTocBodyConsistency doc
  else if rule.id = "HEADING_HIERARCHY_CHECK" then checkHeadingHierarchy doc
  else []).map (applyRuleFixDefaults rule)

/-- The targets of a rule that fail its condition (the per-target loop of
`_check_rule`). -/
def violTargets (rule : Rule) (doc : DocData) : List Target :=
  (getCheckTargets doc rule.match_ty rule.category).filter
    (fun t => !(matchCondition t rule.condition rule.category rule.match_ty))

/-- The issues `_check_rule` accumulates before run-level aggregation. -/
def preAggIssues (rule : Rule) (doc : DocData) : List Issue :=
  (violTargets rule doc).map (fun t => createIssue rule t rule.match_ty)

/-- `RuleEngine._check_rule`. -/
def checkRule (rule : Rule) (doc : DocData) : List Issue :=
  if rule.category = "structure" then checkStructureRule rule doc
  else if rule.match_ty = "run" ∧ preAggIssues rule doc ≠ [] then
    aggregateRunIssuesByParagraph (preAggIssues rule doc) doc
  else preAggIssues rule doc

/-- Number of `_apply_fix` invocations the location loop of
`RevisionEngine.generate_revised_document` performs for one resolved
location.  `_apply_fix` itself mutates the document XML and is abstracted to
the opaque action being counted; `if not loc: continue` skips the empty
dict, a `document`-type location is applied directly, and a
`paragraph`/`heading`-type location is applied when its `index` (preferred)
or `paragraph_index` resolves to an existing paragraph. -/
def fixApplyCountLoc (nParagraphs : Nat) (loc : Location) : Nat :=
  if loc = ({} : Location) then 0
  else if loc.locType = some "document" then 1
  else if loc.locType = some "paragraph" ∨ loc.locType = some "heading" then
    match (match loc.index with | some i => some i | none => loc.paragraph_index) with
    | some i => if 0 ≤ i ∧ i < (nParagraphs : Int) then 1 else 0
    | none => 0
  else 0

/-- Number of `_apply_fix` invocations `generate_revised_document` performs
for one issue: prefer the full `raw_locations` list; with no raw locations,
a `merged` summary location applies once for a `page`-category issue and is
skipped otherwise, and any other single location is processed normally. -/
def fixApplyCount (nParagraphs : Nat) (issue : Issue) : Nat :=
  match issue.raw_locations with
  | [] =>
    if issue.location.locType = some "merged" then
      if issue.category = "page" then 1 else 0
    else fixApplyCountLoc nParagraphs issue.location
  | locs => (locs.map (fixApplyCountLoc nParagraphs)).sum

/-- First-occurrence keys are sound: a key occurs iff some list element
carries it. -/
theorem mem_keysOf {α κ : Type} [DecidableEq κ] {key : α → κ} {l : List α}
    {k : κ} : k ∈ keysOf key l ↔ ∃ a, a ∈ l ∧ key a = k := by
  induction l with
  | nil => simp [keysOf]
  | cons a t ih =>
    simp only [keysOf, List.mem_cons, List.mem_filter, ih, decide_eq_true_eq]
    by_cases hk : k = key a
    · subst hk
      exact ⟨fun _ => ⟨a, Or.inl rfl, rfl⟩, fun _ => Or.inl rfl⟩
    · constructor
      · rintro (h | ⟨⟨b, hb, rfl⟩, -⟩)
        · exact absurd h hk
        · exact ⟨b, Or.inr hb, rfl⟩
      · rintro ⟨b, hb | hb, hkb⟩
        · subst hb; exact absurd hkb.symm hk
        · exact Or.inr ⟨⟨b, hb, hkb⟩, hk⟩

/-- First-occurrence keys are distinct. -/
theorem keysOf_nodup {α κ : Type} [DecidableEq κ] (key : α → κ) (l : List α) :
    (keysOf key l).Nodup := by
  induction l with
  | nil => simp [keysOf]
  | cons a t ih =>
    refine List.Nodup.cons ?_ (ih.filter _)
    intro hmem
    have := (List.mem_filter.mp hmem).2
    simp at this

/-- If no element of `l` carries key `k`, filtering `l` by `k` is empty. -/
theorem filter_key_eq_nil {α κ : Type} [DecidableEq κ] {key : α → κ}
    {l : List α} {k : κ} (h : ∀ a ∈ l, key a ≠ k) :
    l.filter (fun a => decide (key a = k)) = [] := by
  induction l with
  | nil => rfl
  | cons a t ih =>
    have ha := h a (List.mem_cons_self a t)
    simp only [List.filter_cons, decide_eq_true_eq]
    rw [if_neg (by simpa using ha)]
    exact ih (fun b hb => h b (List.mem_cons_of_mem a hb))

/-- Grouping by first-occurrence keys and re-joining is a permutation of
the original list: the heart of the losslessness of the merge. -/
theorem groupJoin_perm {α κ : Type} [DecidableEq κ] (key : α → κ)
    (l : List α) :
    ((keysOf key l).flatMap
      (fun k => l.filter (fun a => decide (key a = k)))).Perm l := by
  induction l with
  | nil => simp [keysOf]
  | cons a t ih =>
    have hhead : (a :: t).filter (fun b => decide (key b = key a))
        = a :: t.filter (fun b => decide (key b = key a)) := by
      simp [List.filter_cons]
    have hrest : ∀ k ∈ (keysOf key t).filter (fun k => decide (k ≠ key a)),
        (a :: t).filter (fun b => decide (key b = k))
          = t.filter (fun b => decide (key b = k)) := by
      intro k hk
      have hne : k ≠ key a := by
        have := (List.mem_filter.mp hk).2
        simpa using this
      simp only [List.filter_cons, decide_eq_true_eq]
      rw [if_neg (fun h => hne h.symm)]
    have hsplit : (keysOf key (a :: t)).flatMap
          (fun k => (a :: t).filter (fun b => decide (key b = k)))
        = a :: (t.filter (fun b => decide (key b = key a))
          ++ ((keysOf key t).filter (fun k => decide (k ≠ key a))).flatMap
            (fun k => t.filter (fun b => decide (key b = k)))) := by
      have h1 : (keysOf key (a :: t)).flatMap
            (fun k => (a :: t).filter (fun b => decide (key b = k)))
          = ((a :: t).filter (fun b => decide (key b = key a)))
            ++ ((keysOf key t).filter (fun k => decide (k ≠ key a))).flatMap
              (fun k => (a :: t).filter (fun b => decide (key b = k))) := by
        simp [keysOf]
      rw [h1, hhead, List.flatMap_congr hrest]
      rfl
    rw [hsplit]
    refine List.Perm.cons a (List.Perm.trans ?_ ih)
    by_cases hmem : key a ∈ keysOf key t
    · have hperm : (keysOf key t).Perm
          (key a :: (keysOf key t).filter (fun k => decide (k ≠ key a))) := by
        have h1 := List.perm_cons_erase hmem
        have h2 : (keysOf key t).erase (key a)
            = (keysOf key t).filter (fun k => decide (k ≠ key a)) := by
          rw [(keysOf_nodup key t).erase_eq_filter]
          exact List.filter_congr (fun x _ => by
            simp only [bne, decide_not]
            rfl)
        rw [h2] at h1
        exact h1
      have := (hperm.flatMap_right
        (fun k => t.filter (fun b => decide (key b = k)))).symm
      simpa using this
    · have hempty : t.filter (fun b => decide (key b = key a)) = [] := by
        refine filter_key_eq_nil (fun b hb hkb => hmem ?_)
        exact mem_keysOf.mpr ⟨b, hb, hkb⟩
      have hfull : (keysOf key t).filter (fun k => decide (k ≠ key a))
          = keysOf key t := by
        refine List.filter_eq_self.mpr (fun k hk => ?_)
        have : k ≠ key a := fun h => hmem (h ▸ hk)
        simpa using this
      rw [hempty, hfull]
      simp

/-- A key extracted from the list has a non-empty group. -/
theorem filter_key_ne_nil {α κ : Type} [DecidableEq κ] {key : α → κ}
    {l : List α} {k : κ} (h : k ∈ keysOf key l) :
    l.filter (fun a => decide (key a = k)) ≠ [] := by
  obtain ⟨a, ha, hk⟩ := mem_keysOf.mp h
  intro hnil
  have : a ∈ l.filter (fun a => decide (key a = k)) :=
    List.mem_filter.mpr ⟨ha, by simp [hk]⟩
  rw [hnil] at this
  exact List.not_mem_nil a this

theorem flatMap_of_map {α β γ : Type} (f : α → β) (g : β → List γ)
    (l : List α) : (l.map f).flatMap g = l.flatMap (fun a => g (f a)) := by
  induction l with
  | nil => rfl
  | cons a t ih => simp [ih]

theorem map_of_flatMap {α β γ : Type} (g : β → γ) (f : α → List β)
    (l : List α) : (l.flatMap f).map g = l.flatMap (fun a => (f a).map g) := by
  induction l with
  | nil => rfl
  | cons a t ih => simp [ih]

/-- A merged issue built from a non-empty group keeps the group's location
list as `raw_locations`. -/
theorem mergeGroup_raw_locations {g : List Issue} (h : g ≠ []) :
    (mergeGroup g).raw_locations = g.map (fun j => j.location) := by
  cases g with
  | nil => exact absurd rfl h
  | cons i rest => rfl

/-- C1: for every list of issues, the union of the `raw_locations` lists
across the output of `RuleEngine._merge_issues_by_rule` equals, as a
multiset, the multiset of `location` values of the pre-merge input issues —
merging is lossless. -/
theorem c1_merge_lossless (issues : List Issue) :
    ((mergeIssuesByRule issues).flatMap (fun m => m.raw_locations) : Multiset Location)
      = (issues.map (fun i => i.location) : Multiset Location) := by
  rw [Multiset.coe_eq_coe]
  unfold mergeIssuesByRule
  rw [flatMap_of_map]
  have hcongr : ∀ rid ∈ keysOf (fun i => i.rule_id) issues,
      (mergeGroup (issues.filter (fun i => decide (i.rule_id = rid)))).raw_locations
        = (issues.filter (fun i => decide (i.rule_id = rid))).map (fun j => j.location) :=
    fun rid hrid => mergeGroup_raw_locations (filter_key_ne_nil hrid)
  rw [List.flatMap_congr hcongr, ← map_of_flatMap]
  exact (groupJoin_perm (fun i => i.rule_id) issues).map (fun j => j.location)

/-- A merged issue built from a non-empty group summarises the group's
location list. -/
theorem mergeGroup_location {g : List Issue} (h : g ≠ []) :
    (mergeGroup g).location = mergeLocations (g.map (fun j => j.location)) := by
  cases g with
  | nil => exact absurd rfl h
  | cons i rest => rfl

/-- The summary of a non-empty location list is tagged `merged` and counts
the list. -/
theorem mergeLocations_merged {locs : List Location} (h : locs ≠ []) :
    (mergeLocations locs).locType = some "merged"
      ∧ (mergeLocations locs).count = some locs.length := by
  unfold mergeLocations
  rw [if_neg (by simpa using h)]
  exact ⟨rfl, rfl⟩

/-- C9: every issue produced by `RuleEngine._merge_issues_by_rule` has a
summary location of type `merged` whose `count` equals the length of its
`raw_locations` list. -/
theorem c9_merged_count_consistent (issues : List Issue) (m : Issue)
    (h : m ∈ mergeIssuesByRule issues) :
    m.location.locType = some "merged"
      ∧ m.location.count = some m.raw_locations.length := by
  obtain ⟨rid, hrid, rfl⟩ := List.mem_map.mp h
  have hne := filter_key_ne_nil hrid
  rw [mergeGroup_location hne, mergeGroup_raw_locations hne]
  have hmapne :
      (issues.filter (fun i => decide (i.rule_id = rid))).map (fun j => j.location) ≠ [] := by
    simpa using hne
  exact mergeLocations_merged hmapne

/-- A concrete pre-merge run issue used by the witnesses. -/
def sampleRunIssue : Issue :=
  { rule_id := "FONT_CHECK"
    rule_name := "正文字体字号检查"
    category := "font"
    error_message := "字体不符合规范"
    suggestion := "请使用宋体小四"
    location := { locType := some "run", paragraph_index := some 0
                  page_number := some 1, description := some "第1页第1段文本" } }

theorem headD_mem {α : Type} {l : List α} (d : α) (h : l ≠ []) :
    l.headD d ∈ l := by
  cases l with
  | nil => exact absurd rfl h
  | cons a t => exact List.mem_cons_self a t

theorem mergeIssuesByRule_single_ne_nil :
    mergeIssuesByRule [sampleRunIssue] ≠ [] := by
  unfold mergeIssuesByRule
  simp [keysOf]

/-- Witness for C9 at a concrete one-issue input. -/
theorem c9_merged_count_consistent_witness :
    ((mergeIssuesByRule [sampleRunIssue]).headD {}).location.locType = some "merged"
      ∧ ((mergeIssuesByRule [sampleRunIssue]).headD {}).location.count
        = some ((mergeIssuesByRule [sampleRunIssue]).headD {}).raw_locations.length :=
  c9_merged_count_consistent [sampleRunIssue] _
    (headD_mem {} mergeIssuesByRule_single_ne_nil)

/-- C2 counterexample: re-merging a merged output changes it — the second
merge wraps each issue's summary location as the new (singleton)
`raw_locations`, so even a single-issue input refutes
`merge(merge(X)) == merge(X)`. -/
theorem c2_counterexample :
    mergeIssuesByRule (mergeIssuesByRule [sampleRunIssue])
      ≠ mergeIssuesByRule [sampleRunIssue] :=
  fun h =>
    absurd (congrArg (List.map (fun i => i.raw_locations)) h) (by decide)

/-- The head of a non-empty key group carries the key. -/
theorem mergeGroup_rule_id {l : List Issue} {k : String}
    (h : l.filter (fun i => decide (i.rule_id = k)) ≠ []) :
    (mergeGroup (l.filter (fun i => decide (i.rule_id = k)))).rule_id = k := by
  cases hg : l.filter (fun i => decide (i.rule_id = k)) with
  | nil => exact absurd hg h
  | cons i rest =>
    have hi : i ∈ l.filter (fun i => decide (i.rule_id = k)) := by
      rw [hg]; exact List.mem_cons_self i rest
    have hik := (List.mem_filter.mp hi).2
    simp only [decide_eq_true_eq] at hik
    exact hik

/-- The merged output's `rule_id` sequence is exactly the distinct keys of
the input in first-occurrence order. -/
theorem mergeIssuesByRule_map_rule_id (l : List Issue) :
    (mergeIssuesByRule l).map (fun m => m.rule_id)
      = keysOf (fun i => i.rule_id) l := by
  unfold mergeIssuesByRule
  rw [List.map_map]
  have hcongr : ∀ k ∈ keysOf (fun i => i.rule_id) l,
      ((fun m => m.rule_id)
        ∘ fun rid => mergeGroup (l.filter (fun i => decide (i.rule_id = rid)))) k = k :=
    fun k hk => mergeGroup_rule_id (filter_key_ne_nil hk)
  rw [List.map_congr_left hcongr]
  exact List.map_id _

/-- On an input with pairwise-distinct rule ids the merge acts elementwise:
each issue forms its own singleton group. -/
theorem mergeIssuesByRule_of_nodup {l : List Issue}
    (h : (l.map (fun i => i.rule_id)).Nodup) :
    mergeIssuesByRule l = l.map (fun i => mergeGroup [i]) := by
  induction l with
  | nil => rfl
  | cons a t ih =>
    have hna : a.rule_id ∉ t.map (fun i => i.rule_id) := (List.nodup_cons.mp h).1
    have hnt := (List.nodup_cons.mp h).2
    have hkeys : keysOf (fun i => i.rule_id) (a :: t)
        = a.rule_id :: keysOf (fun i => i.rule_id) t := by
      show a.rule_id :: (keysOf (fun i => i.rule_id) t).filter
          (fun k => decide (k ≠ a.rule_id)) = _
      congr 1
      refine List.filter_eq_self.mpr (fun k hk => ?_)
      obtain ⟨b, hb, hkb⟩ := mem_keysOf.mp hk
      have hne : k ≠ a.rule_id := by
        intro he
        exact hna (he ▸ hkb ▸ List.mem_map_of_mem (fun i => i.rule_id) hb)
      simpa using hne
    show (keysOf (fun i => i.rule_id) (a :: t)).map
        (fun rid => mergeGroup ((a :: t).filter (fun i => decide (i.rule_id = rid)))) = _
    rw [hkeys]
    simp only [List.map_cons]
    congr 1
    · have htf : t.filter (fun i => decide (i.rule_id = a.rule_id)) = [] := by
        refine @filter_key_eq_nil Issue String _ (fun i => i.rule_id) t a.rule_id
          (fun b hb hkb => ?_)
        exact hna (hkb ▸ List.mem_map_of_mem (fun i => i.rule_id) hb)
      have hfilter : (a :: t).filter (fun i => decide (i.rule_id = a.rule_id)) = [a] := by
        simp only [List.filter_cons, decide_eq_true_eq]
        simp [htf]
      rw [hfilter]
    · have hcongr : ∀ k ∈ keysOf (fun i => i.rule_id) t,
          mergeGroup ((a :: t).filter (fun i => decide (i.rule_id = k)))
            = mergeGroup (t.filter (fun i => decide (i.rule_id = k))) := by
        intro k hk
        obtain ⟨b, hb, hkb⟩ := mem_keysOf.mp hk
        have hne : ¬(a.rule_id = k) := by
          intro he
          exact hna (he ▸ hkb ▸ List.mem_map_of_mem (fun i => i.rule_id) hb)
        congr 1
        simp only [List.filter_cons, decide_eq_true_eq]
        rw [if_neg hne]
      rw [List.map_congr_left hcongr]
      exact ih hnt

/-- The rule metadata of an issue: everything `_merge_issues_by_rule` copies
verbatim from the first issue of a group. -/
def issueMeta (i : Issue) :
    String × String × String × String × String × Option String × Option FixParams :=
  (i.rule_id, i.rule_name, i.category, i.error_message, i.suggestion,
    i.fix_action, i.fix_params)

/-- C2 amended: re-merging preserves the issue count, the order, and all
rule metadata — only the location bookkeeping fields (`location`,
`locations_list`, `raw_locations`) change, as the counterexample forces. -/
theorem c2_merge_idempotent_on_metadata (X : List Issue) :
    (mergeIssuesByRule (mergeIssuesByRule X)).map issueMeta
      = (mergeIssuesByRule X).map issueMeta := by
  have hnodup : ((mergeIssuesByRule X).map (fun m => m.rule_id)).Nodup := by
    rw [mergeIssuesByRule_map_rule_id]
    exact keysOf_nodup _ _
  rw [mergeIssuesByRule_of_nodup hnodup, List.map_map]
  exact List.map_congr_left (fun i _ => rfl)

/-- C3: a run or heading target whose font name or size is unresolved
always passes the font matcher and (outside the `section` numbering branch)
the heading matcher, and consequently never appears among a font or
heading rule's violating targets. -/
theorem c3_skip_on_uncertainty :
    (∀ (t : Target) (c : Condition),
      (t.font.getD {}).name = none ∨ (t.font.getD {}).size_pt = none →
      matchFontCondition t c = true)
    ∧ (∀ (t : Target) (c : Condition) (mt : String), mt ≠ "section" →
      (t.font.getD {}).name = none ∨ (t.font.getD {}).size_pt = none →
      matchHeadingCondition t c mt = true)
    ∧ (∀ (rule : Rule) (doc : DocData) (t : Target), rule.category = "font" →
      t ∈ violTargets rule doc →
      ¬((t.font.getD {}).name = none ∨ (t.font.getD {}).size_pt = none))
    ∧ (∀ (rule : Rule) (doc : DocData) (t : Target), rule.category = "heading" →
      rule.match_ty ≠ "section" → t ∈ violTargets rule doc →
      ¬((t.font.getD {}).name = none ∨ (t.font.getD {}).size_pt = none)) := by
  have h1 : ∀ (t : Target) (c : Condition),
      (t.font.getD {}).name = none ∨ (t.font.getD {}).size_pt = none →
      matchFontCondition t c = true := by
    intro t c h
    unfold matchFontCondition
    rw [if_pos h]
  have h2 : ∀ (t : Target) (c : Condition) (mt : String), mt ≠ "section" →
      (t.font.getD {}).name = none ∨ (t.font.getD {}).size_pt = none →
      matchHeadingCondition t c mt = true := by
    intro t c mt hmt h
    unfold matchHeadingCondition
    rw [if_neg hmt]
    cases levelCondition c t.level with
    | none => rfl
    | some lc =>
      show (if _ then _ else _) = true
      rw [if_pos h]
  refine ⟨h1, h2, ?_, ?_⟩
  · intro rule doc t hcat hv
    intro h
    unfold violTargets at hv
    have hm := (List.mem_filter.mp hv).2
    rw [hcat] at hm
    have hd : matchCondition t rule.condition "font" rule.match_ty
        = matchFontCondition t rule.condition := by
      simp [matchCondition]
    rw [hd, h1 t rule.condition h] at hm
    simp at hm
  · intro rule doc t hcat hmt hv
    intro h
    unfold violTargets at hv
    have hm := (List.mem_filter.mp hv).2
    rw [hcat] at hm
    have hd : matchCondition t rule.condition "heading" rule.match_ty
        = matchHeadingCondition t rule.condition rule.match_ty := by
      simp [matchCondition]
    rw [hd, h2 t rule.condition rule.match_ty hmt h] at hm
    simp at hm

/-- Witness for C3: a run with an unresolved font name passes a concrete
font condition, and a level-1 heading with an unresolved size passes a
concrete per-level heading condition. -/
theorem c3_skip_on_uncertainty_witness :
    matchFontCondition { text := some "中文正文", font := some { size_pt := some 12 } }
      { chinese_font := some "宋体", chinese_size_pt := some 12 } = true
    ∧ matchHeadingCondition { level := some 1, font := some { name := some "黑体" } }
      { level1 := some { font := some "黑体", size_pt := some 16, bold := some true } }
      "heading" = true :=
  ⟨c3_skip_on_uncertainty.1 _ _ (Or.inl rfl),
    c3_skip_on_uncertainty.2.1 _ _ _ (by decide) (Or.inr rfl)⟩

/-- A document whose headings carry only levels, for the heading-hierarchy
examples. -/
def docOfLevels (ls : List Int) : DocData :=
  { headings := ls.map (fun lv => { level := some lv }) }

/-- The pair scan of `check_heading_hierarchy` reports exactly the adjacent
pairs where the successor is deeper than `previous + 1` and is not a fresh
level-1 heading. -/
theorem hierLoop_eq (doc : DocData) (a : Target) (l : List Target) :
    hierLoop doc (a :: l)
      = (((a :: l).zip l).filter (fun pc =>
          decide (pc.2.level.getD 1 ≠ 1 ∧ pc.1.level.getD 1 + 1 < pc.2.level.getD 1))).map
        (fun pc => jumpIssue doc pc.1 pc.2) := by
  induction l generalizing a with
  | nil => rfl
  | cons b t ih =>
    show (if b.level.getD 1 = 1 then []
        else if b.level.getD 1 > a.level.getD 1 + 1 then [jumpIssue doc a b] else [])
        ++ hierLoop doc (b :: t) = _
    rw [ih b]
    by_cases h1 : b.level.getD 1 = 1
    · simp [List.zip_cons_cons, List.filter_cons, h1]
    · by_cases h2 : a.level.getD 1 + 1 < b.level.getD 1
      · simp [List.zip_cons_cons, List.filter_cons, h1, h2, gt_iff_lt]
      · simp [List.zip_cons_cons, List.filter_cons, h1, h2, gt_iff_lt]

/-- C5: `check_heading_hierarchy` reports an issue exactly for each heading
whose level exceeds the immediately preceding heading's level by more than
one, except when the new heading is level 1, each issue naming (inside
`jumpIssue`) the missing level `previous + 1`; in particular `[1,2,3]` and
`[1,1,2]` yield no issues and `[1,3]` yields exactly one naming level 2. -/
theorem c5_heading_hierarchy :
    (∀ doc : DocData, checkHeadingHierarchy doc
      = ((doc.headings.zip doc.headings.tail).filter (fun pc =>
          decide (pc.2.level.getD 1 ≠ 1 ∧ pc.1.level.getD 1 + 1 < pc.2.level.getD 1))).map
        (fun pc => jumpIssue doc pc.1 pc.2))
    ∧ checkHeadingHierarchy (docOfLevels [1, 2, 3]) = []
    ∧ (checkHeadingHierarchy (docOfLevels [1, 3])).map
        (fun i => (i.rule_id, i.error_message))
      = [("HEADING_LEVEL_JUMP", "标题层级从1级跳转到3级，中间缺少2级标题")]
    ∧ checkHeadingHierarchy (docOfLevels [1, 1, 2]) = [] := by
  refine ⟨?_, by decide, by decide, by decide⟩
  intro doc
  unfold checkHeadingHierarchy
  cases hh : doc.headings with
  | nil => simp
  | cons a l =>
    cases l with
    | nil => simp
    | cons b t =>
      rw [if_neg (by simp)]
      exact hierLoop_eq doc a (b :: t)

/-- One margin-side check fails exactly when the side is constrained and
the absolute difference exceeds the tolerance. -/
theorem sideOk_eq_false_iff {actual tol : ℚ} {o : Option ℚ} :
    sideOk actual tol o = false ↔ ∃ e, o = some e ∧ tol < |actual - e| := by
  cases o with
  | none => simp [sideOk]
  | some e => simp [sideOk, not_le]

/-- Concrete document target carrying only a top margin. -/
def marginTarget (top : ℚ) : Target :=
  { page_settings := some { margins := { top_mm := some top } } }

/-- Concrete page condition: expected top margin 25.4 mm, tolerance 2 mm. -/
def marginCond : Condition := { top_mm := some 25.4, tolerance_mm := some 2 }

/-- C6: with expected top margin 25.4 mm and tolerance 2 mm, an actual top
margin of 27.4 mm passes and 27.41 mm fails; in general (absent a
paper-size constraint) the page match fails exactly when some constrained
side's absolute difference from its expected value exceeds the tolerance. -/
theorem c6_margin_tolerance :
    matchPageCondition (marginTarget 27.4) marginCond = true
    ∧ matchPageCondition (marginTarget 27.41) marginCond = false
    ∧ (∀ (t : Target) (c : Condition), c.paper_name = none →
      (matchPageCondition t c = false ↔
        (∃ e, c.top_mm = some e ∧ c.tolerance_mm.getD (1/2)
          < |((t.page_settings.getD {}).margins.top_mm.getD 0) - e|)
        ∨ (∃ e, c.bottom_mm = some e ∧ c.tolerance_mm.getD (1/2)
          < |((t.page_settings.getD {}).margins.bottom_mm.getD 0) - e|)
        ∨ (∃ e, c.left_mm = some e ∧ c.tolerance_mm.getD (1/2)
          < |((t.page_settings.getD {}).margins.left_mm.getD 0) - e|)
        ∨ (∃ e, c.right_mm = some e ∧ c.tolerance_mm.getD (1/2)
          < |((t.page_settings.getD {}).margins.right_mm.getD 0) - e|))) := by
  refine ⟨?_, ?_, ?_⟩
  · simp only [matchPageCondition, marginTarget, marginCond, sideOk, Option.getD_some,
      Bool.and_true, decide_eq_true_eq]
    rw [show (27.4 : ℚ) - 25.4 = 2 by norm_num]
    rw [abs_of_nonneg (by norm_num : (0 : ℚ) ≤ 2)]
  · simp only [matchPageCondition, marginTarget, marginCond, sideOk, Option.getD_some,
      Bool.and_true, decide_eq_false_iff_not, not_le]
    rw [show (27.41 : ℚ) - 25.4 = 2.01 by norm_num]
    rw [abs_of_nonneg (by norm_num : (0 : ℚ) ≤ 2.01)]
    norm_num
  · intro t c hp
    unfold matchPageCondition
    rw [hp]
    simp only [Bool.and_true, Bool.and_eq_false_iff, sideOk_eq_false_iff, or_assoc]

/-- Witness for C6's general part at the concrete failing margin. -/
theorem c6_margin_tolerance_witness :
    matchPageCondition (marginTarget 27.41) marginCond = false ↔
      (∃ e, marginCond.top_mm = some e ∧ marginCond.tolerance_mm.getD (1/2)
        < |(((marginTarget 27.41).page_settings.getD {}).margins.top_mm.getD 0) - e|)
      ∨ (∃ e, marginCond.bottom_mm = some e ∧ marginCond.tolerance_mm.getD (1/2)
        < |(((marginTarget 27.41).page_settings.getD {}).margins.bottom_mm.getD 0) - e|)
      ∨ (∃ e, marginCond.left_mm = some e ∧ marginCond.tolerance_mm.getD (1/2)
        < |(((marginTarget 27.41).page_settings.getD {}).margins.left_mm.getD 0) - e|)
      ∨ (∃ e, marginCond.right_mm = some e ∧ marginCond.tolerance_mm.getD (1/2)
        < |(((marginTarget 27.41).page_settings.getD {}).margins.right_mm.getD 0) - e|) :=
  c6_margin_tolerance.2.2 (marginTarget 27.41) marginCond rfl

/-- C7: a missing table of contents short-circuits
`check_toc_body_consistency` with exactly the one missing-TOC issue, and an
existing but empty one with exactly the one empty-TOC issue, whatever the
document's headings. -/
theorem c7_toc_degenerate :
    (∀ doc : DocData, doc.table_of_contents.toc_exists = false →
      checkTocBodyConsistency doc = [tocMissingIssue])
    ∧ (∀ doc : DocData, doc.table_of_contents.toc_exists = true →
      doc.table_of_contents.entries = [] →
      checkTocBodyConsistency doc = [tocEmptyIssue]) := by
  constructor
  · intro doc h
    unfold checkTocBodyConsistency
    rw [h]
    simp
  · intro doc h he
    unfold checkTocBodyConsistency
    rw [h, he]
    simp

/-- Witness for C7: a default document has no TOC; a document whose TOC
exists with no entries is empty. -/
theorem c7_toc_degenerate_witness :
    checkTocBodyConsistency {} = [tocMissingIssue]
      ∧ checkTocBodyConsistency { table_of_contents := { toc_exists := true } }
        = [tocEmptyIssue] :=
  ⟨c7_toc_degenerate.1 {} rfl, c7_toc_degenerate.2 _ rfl rfl⟩

/-- A non-empty list all of whose elements carry the same key has that key
as its only first-occurrence key. -/
theorem keysOf_const {α κ : Type} [DecidableEq κ] {key : α → κ} {l : List α}
    {k : κ} (hne : l ≠ []) (h : ∀ a ∈ l, key a = k) : keysOf key l = [k] := by
  induction l with
  | nil => exact absurd rfl hne
  | cons a t ih =>
    have hka := h a (List.mem_cons_self a t)
    show key a :: (keysOf key t).filter (fun x => decide (x ≠ key a)) = [k]
    cases t with
    | nil => simp [keysOf, hka]
    | cons b t2 =>
      rw [ih (by simp) (fun x hx => h x (List.mem_cons_of_mem a hx)), hka]
      simp

/-- Concrete run that violates the body font-size rule: Chinese text at
12 pt where 14 pt is expected. -/
def badRun : Target :=
  { text := some "中文内容"
    font := some { name := some "宋体", size_pt := some 12 }
    paragraph_index := some 0
    page_number := some 1 }

/-- Concrete run-matched body font rule expecting 14 pt Chinese text. -/
def sizeRule : Rule :=
  { id := "FONT_SIZE_CHECK"
    name := "正文字号检查"
    category := "font"
    match_ty := "run"
    condition := { chinese_size_pt := some 14 }
    error_message := some "正文字号不符合规范"
    suggestion := some "请使用四号字" }

/-- Document with five violating runs, all in its single paragraph. -/
def fiveRunDoc : DocData :=
  { paragraphs := [{ index := some 0, page_number := some 1
                     start_line := some 1, end_line := some 1 }]
    runs := [badRun, badRun, badRun, badRun, badRun] }

theorem badRun_violates : matchFontCondition badRun sizeRule.condition = false := by
  have hcc : containsChinese "中文内容" = true := by decide
  simp [matchFontCondition, badRun, sizeRule, hcc]
  rw [show (12 : ℚ) - 14 = -2 by norm_num,
    abs_of_nonpos (by norm_num : (-2 : ℚ) ≤ 0)]
  norm_num

theorem badRun_violates_dispatch :
    matchCondition badRun sizeRule.condition "font" "run" = false := by
  simp [matchCondition, badRun_violates]

theorem fiveRunDoc_viol :
    violTargets sizeRule fiveRunDoc = [badRun, badRun, badRun, badRun, badRun] := by
  unfold violTargets
  rw [show sizeRule.match_ty = "run" from rfl, show sizeRule.category = "font" from rfl,
    show getCheckTargets fiveRunDoc "run" "font"
      = [badRun, badRun, badRun, badRun, badRun] by
        simp [getCheckTargets, fiveRunDoc]]
  simp [badRun_violates_dispatch]

theorem fiveRunDoc_preAgg :
    preAggIssues sizeRule fiveRunDoc
      = [createIssue sizeRule badRun "run", createIssue sizeRule badRun "run",
        createIssue sizeRule badRun "run", createIssue sizeRule badRun "run",
        createIssue sizeRule badRun "run"] := by
  unfold preAggIssues
  rw [fiveRunDoc_viol]
  rfl

/-- C4 counterexample: five violating runs in one paragraph do yield exactly
one paragraph-level issue, but its location carries no count field at all
(the tallied `run_count` is dropped), refuting "carrying the count of
violating runs" (which would be `some 5`). -/
theorem c4_counterexample :
    (checkRule sizeRule fiveRunDoc).map
        (fun i => (i.location.locType, i.location.count))
      = [(some "paragraph", (none : Option Nat))]
    ∧ ((none : Option Nat) ≠ some 5) := by
  refine ⟨?_, by simp⟩
  unfold checkRule
  rw [if_neg (by decide : ¬(sizeRule.category = "structure"))]
  rw [if_pos ⟨rfl, by rw [fiveRunDoc_preAgg]; simp⟩]
  rw [fiveRunDoc_preAgg]
  decide

/-- C4 amended: for every non-structure run-matched rule whose violating
targets all lie in paragraph `p`, `_check_rule` returns exactly one issue —
rule metadata plus a single paragraph-level location for `p` carrying no
violating-run count. -/
theorem c4_run_aggregation (rule : Rule) (doc : DocData) (p : Int)
    (hcat : rule.category ≠ "structure")
    (hm : rule.match_ty = "run")
    (hne : violTargets rule doc ≠ [])
    (hall : ∀ t ∈ violTargets rule doc, t.paragraph_index.getD 0 = p) :
    ∃ loc : Location,
      checkRule rule doc
        = [{ rule_id := rule.id, rule_name := rule.name, category := rule.category
             error_message := rule.error_message.getD "格式不符合规范"
             suggestion := rule.suggestion.getD ""
             fix_action := rule.fix_action, fix_params := rule.fix_params
             location := loc }]
      ∧ loc.locType = some "paragraph" ∧ loc.index = some p ∧ loc.count = none := by
  have hpre : preAggIssues rule doc
      = (violTargets rule doc).map (fun t => createIssue rule t "run") := by
    unfold preAggIssues
    rw [hm]
  have hkey : ∀ i ∈ preAggIssues rule doc,
      i.location.paragraph_index.getD 0 = p := by
    intro i hi
    rw [hpre] at hi
    obtain ⟨t, ht, rfl⟩ := List.mem_map.mp hi
    have hp := hall t ht
    simp [createIssue, buildLocation, hp]
  have hprene : preAggIssues rule doc ≠ [] := by
    rw [hpre]
    cases hv : violTargets rule doc with
    | nil => exact absurd hv hne
    | cons a l => simp
  unfold checkRule
  rw [if_neg hcat, if_pos ⟨hm, hprene⟩]
  unfold aggregateRunIssuesByParagraph
  rw [keysOf_const hprene hkey]
  have hfilterall : (preAggIssues rule doc).filter
      (fun i => decide (i.location.paragraph_index.getD 0 = p))
      = preAggIssues rule doc :=
    List.filter_eq_self.mpr (fun i hi => by simp [hkey i hi])
  simp only [List.map_cons, List.map_nil]
  rw [hfilterall, hpre]
  cases hv : violTargets rule doc with
  | nil => exact absurd hv hne
  | cons t0 ts =>
    simp only [List.map_cons]
    rcases hsc : (if 0 ≤ p ∧ p < (doc.paragraphs.length : Int) then
        doc.paragraphs[p.toNat]? else none) with _ | para
    · exact ⟨_, rfl, rfl, rfl, rfl⟩
    · exact ⟨_, rfl, rfl, rfl, rfl⟩

/-- Witness for the amended C4 at the concrete five-run document. -/
theorem c4_run_aggregation_witness :
    (checkRule sizeRule fiveRunDoc).map
        (fun i => (i.location.locType, i.location.index, i.location.count))
      = [(some "paragraph", some (0 : Int), (none : Option Nat))] := by
  obtain ⟨loc, heq, h1, h2, h3⟩ :=
    c4_run_aggregation sizeRule fiveRunDoc 0 (by decide) rfl
      (by rw [fiveRunDoc_viol]; simp)
      (by
        rw [fiveRunDoc_viol]
        intro t ht
        simp only [List.mem_cons, List.not_mem_nil, or_false] at ht
        rcases ht with rfl | rfl | rfl | rfl | rfl <;> rfl)
  rw [heq]
  simp [h1, h2, h3]

/-- The document-level location `_build_location` emits for a `document`
match. -/
def docLoc : Location :=
  { locType := some "document", description := some "文档整体设置" }

/-- A page-category issue carrying two document-level raw locations. -/
def pageIssueTwoLocs : Issue :=
  { rule_id := "PAGE_MARGIN_25"
    rule_name := "页边距检查"
    category := "page"
    error_message := "页边距不符合规范"
    suggestion := "请调整页边距"
    fix_action := some "set_page_margin"
    location := mergeLocations [docLoc, docLoc]
    raw_locations := [docLoc, docLoc] }

/-- A page-category issue reduced to a merged summary with no raw location
list (the fallback path of `generate_revised_document`). -/
def mergedPageIssue : Issue :=
  { rule_id := "PAGE_MARGIN_25"
    rule_name := "页边距检查"
    category := "page"
    error_message := "页边距不符合规范"
    suggestion := "请调整页边距"
    fix_action := some "set_page_margin"
    location := { locType := some "merged", description := some "共3处位置"
                  count := some 3 } }

/-- C8 counterexample: an issue whose `raw_locations` holds two
document-level locations has its fix applied twice, not once — the loop
applies once per document-level raw location. -/
theorem c8_counterexample :
    fixApplyCount 0 pageIssueTwoLocs = 2 ∧ (2 : Nat) ≠ 1 := by
  constructor
  · decide
  · decide

/-- A document-type location is applied exactly once by the location loop. -/
theorem fixApplyCountLoc_document {n : Nat} {loc : Location}
    (h : loc.locType = some "document") : fixApplyCountLoc n loc = 1 := by
  have hne : ¬(loc = ({} : Location)) := by
    intro he
    rw [he] at h
    cases h
  unfold fixApplyCountLoc
  rw [if_neg hne, if_pos h]

theorem sum_map_of_all_one {α : Type} {l : List α} {f : α → Nat}
    (h : ∀ a ∈ l, f a = 1) : (l.map f).sum = l.length := by
  induction l with
  | nil => rfl
  | cons a t ih =>
    simp only [List.map_cons, List.sum_cons, List.length_cons,
      h a (List.mem_cons_self a t), ih (fun b hb => h b (List.mem_cons_of_mem a hb))]
    omega

/-- C8 amended: a page-category issue whose locations were merged away
(no `raw_locations`, `merged` summary location) has its fix applied exactly
once; an issue carrying raw locations that are all document-level has its
fix applied once per raw location — so exactly once only when it carries
exactly one. -/
theorem c8_page_fix_application :
    (∀ (n : Nat) (issue : Issue), issue.raw_locations = [] →
      issue.location.locType = some "merged" → issue.category = "page" →
      fixApplyCount n issue = 1)
    ∧ (∀ (n : Nat) (issue : Issue), issue.raw_locations ≠ [] →
      (∀ l ∈ issue.raw_locations, l.locType = some "document") →
      fixApplyCount n issue = issue.raw_locations.length) := by
  constructor
  · intro n issue hraw hm hc
    unfold fixApplyCount
    rw [hraw]
    simp [hm, hc]
  · intro n issue hraw hdoc
    unfold fixApplyCount
    cases hr : issue.raw_locations with
    | nil => exact absurd hr hraw
    | cons l0 ls =>
      show ((l0 :: ls).map (fixApplyCountLoc n)).sum = (l0 :: ls).length
      refine sum_map_of_all_one (fun l hl => fixApplyCountLoc_document ?_)
      exact hdoc l (hr ▸ hl)

/-- Witness for the amended C8: the fallback path applies once; two
document-level raw locations apply twice. -/
theorem c8_page_fix_application_witness :
    fixApplyCount 3 mergedPageIssue = 1 ∧ fixApplyCount 3 pageIssueTwoLocs = 2 := by
  constructor
  · exact c8_page_fix_application.1 3 mergedPageIssue rfl rfl rfl
  · have h := c8_page_fix_application.2 3 pageIssueTwoLocs (by decide) (by decide)
    rw [h]
    decide

/-- C10: every per-page display group of `_build_locations_list` caps its
`items` at the first 20 display strings, keeps the full list in
`all_items`, and sets `has_more` exactly when the full list exceeds 20. -/
theorem c10_display_cap (locations : List Location) (g : PageGroup)
    (h : g ∈ buildLocationsList locations) :
    g.items.length ≤ 20 ∧ (g.has_more = true ↔ 20 < g.all_items.length)
      ∧ g.items = g.all_items.take 20 := by
  unfold buildLocationsList at h
  by_cases hnil : locations.isEmpty
  · rw [if_pos hnil] at h
    cases h
  · rw [if_neg hnil] at h
    obtain ⟨page, hpage, rfl⟩ := List.mem_map.mp h
    refine ⟨?_, ?_, rfl⟩
    · exact List.length_take_le 20 _
    · simp only [decide_eq_true_eq]

/-- 21 heading-type locations: enough to overflow one page group. -/
def manyLocs : List Location :=
  List.replicate 21 { locType := some "heading", description := some "标题位置" }

/-- Witness for C10 at a 21-location input. -/
theorem c10_display_cap_witness :
    ((buildLocationsList manyLocs).headD {}).items.length ≤ 20
      ∧ (((buildLocationsList manyLocs).headD {}).has_more = true
        ↔ 20 < ((buildLocationsList manyLocs).headD {}).all_items.length)
      ∧ ((buildLocationsList manyLocs).headD {}).items
        = ((buildLocationsList manyLocs).headD {}).all_items.take 20 :=
  c10_display_cap manyLocs _ (headD_mem {} (by decide))

end DocHelper
